import Mathlib

/-!
Shallow embedding of `spikeextractors/extractors/mearecextractors/mearecextractors.py`.

The module defines two adapter classes over in-memory MEArec containers:
`MEArecRecordingExtractor` (channel traces) and `MEArecSortingExtractor`
(spike trains), plus a module-level dependency loader
`_load_required_modules` and two static export routines `writeRecording`
and `writeSorting`.

Modelling conventions:
- physical times (seconds) and trace samples are rationals (`ℚ`);
- numpy arrays become `List`s; a channel×frame matrix is a `List (List ℚ)`;
- Python exceptions become `Except String`, with the message recording the
  kind of exception raised (`KeyError`, `ValueError`, `IndexError`, ...);
- the three importable external packages become a `PyEnv` record of flags,
  and `load_required_modules` models `_load_required_modules`;
- `np.rint` (round half to even) is modelled by `rint` below.
-/

/-- The importability of the three external packages required by the module
(`MEArec`, `quantities`, `neo`). -/
structure PyEnv where
  has_MEArec : Bool
  has_quantities : Bool
  has_neo : Bool
deriving DecidableEq

/-- The error message raised by `_load_required_modules` when an import
fails (source lines 13-15). -/
def depMissingMsg : String :=
  "To use the MEArec extractors, install MEArec: \n\npip install MEArec\n\n"

/-- Embedding of `_load_required_modules` (source lines 8-16): the three
imports are attempted; a `ModuleNotFoundError` from any of them is replaced
by a single error carrying `depMissingMsg`. -/
def load_required_modules (env : PyEnv) : Except String Unit :=
  if env.has_MEArec && env.has_quantities && env.has_neo then Except.ok ()
  else Except.error depMissingMsg

/-- The environment in which all three dependencies are importable. -/
def allDeps : PyEnv := ⟨true, true, true⟩

/-- In-memory content of a MEArec recording container, as read through
`mr.load_recordings`: the `recordings` channel×frame matrix, the sampling
rate `info['recordings']['fs']`, and the `channel_positions` array. -/
structure RecContainer where
  recordings : List (List ℚ)
  fs : ℚ
  channel_positions : List (List ℚ)
deriving DecidableEq

/-- State of a constructed `MEArecRecordingExtractor`: the fields set by
`_initialize` plus the per-channel `location` properties set by `__init__`
(source lines 29-31), modelled as an association list channel ↦ location. -/
structure MEArecRecordingExtractor where
  fs : ℚ
  recordings : List (List ℚ)
  num_channels : ℕ
  num_frames : ℕ
  locations : Option (List (List ℚ))
  channelProps : List (ℕ × List ℚ)
deriving DecidableEq

/-- `getChannelProperty(chan, 'location')` on the association-list model of
the channel property store: the value stored for `chan`, if any. -/
def lookupProp (props : List (ℕ × List ℚ)) (ch : ℕ) : Option (List ℚ) :=
  (props.find? (fun p => p.1 == ch)).map Prod.snd

/-- The pure part of `MEArecRecordingExtractor.__init__`/`_initialize`
(source lines 20-42): `num_channels, num_frames = traces.shape`; locations
are kept only when `len(channel_positions) == num_channels`; when kept,
`setChannelProperty(chan, 'location', pos)` runs for each indexed position. -/
def MEArecRecordingExtractor.ofContainer (c : RecContainer) : MEArecRecordingExtractor :=
  { fs := c.fs
    recordings := c.recordings
    num_channels := c.recordings.length
    num_frames := (c.recordings.headD []).length
    locations :=
      if c.channel_positions.length = c.recordings.length then some c.channel_positions
      else none
    channelProps :=
      if c.channel_positions.length = c.recordings.length then c.channel_positions.enum
      else [] }

/-- `MEArecRecordingExtractor.__init__` including the dependency check made
by `_initialize` (source line 34). -/
def MEArecRecordingExtractor.init (env : PyEnv) (c : RecContainer) :
    Except String MEArecRecordingExtractor :=
  match load_required_modules env with
  | Except.error e => Except.error e
  | Except.ok _ => Except.ok (MEArecRecordingExtractor.ofContainer c)

/-- `getChannelIds` (source lines 44-45): `list(range(self._num_channels))`. -/
def MEArecRecordingExtractor.getChannelIds (e : MEArecRecordingExtractor) : List ℕ :=
  List.range e.num_channels

/-- `getNumFrames` (source lines 47-48). -/
def MEArecRecordingExtractor.getNumFrames (e : MEArecRecordingExtractor) : ℕ :=
  e.num_frames

/-- `getSamplingFrequency` (source lines 50-51). -/
def MEArecRecordingExtractor.getSamplingFrequency (e : MEArecRecordingExtractor) : ℚ :=
  e.fs

/-- `getTraces` (source lines 53-60): the defaults are `start_frame = 0`,
`end_frame = getNumFrames()`, `channel_ids = range(num_channels)`; the
result is `recordings[channel_ids, start_frame:end_frame]`, i.e. for each
requested channel the frame slice `[start_frame, end_frame)` of its row. -/
def MEArecRecordingExtractor.getTraces (e : MEArecRecordingExtractor)
    (channel_ids : Option (List ℕ)) (start_frame : Option ℕ) (end_frame : Option ℕ) :
    List (List ℚ) :=
  let s := start_frame.getD 0
  let en := end_frame.getD e.num_frames
  let chans := channel_ids.getD (List.range e.num_channels)
  chans.map (fun ch => ((e.recordings.getD ch []).drop s).take (en - s))

/-- `np.rint`: round to the nearest integer, rounding exact halves to the
nearest even integer. -/
def rint (q : ℚ) : ℤ :=
  if q - q.floor < 1 / 2 then q.floor
  else if 1 / 2 < q - q.floor then q.floor + 1
  else if q.floor % 2 = 0 then q.floor else q.floor + 1

/-- One element of a MEArec spike-train collection, as read through
`mr.load_recordings().spiketrains`: a `neo` spike train with physical
times in seconds and the two optional annotations the adapter reads. -/
structure SpikeTrainData where
  times : List ℚ
  unit_id : Option ℤ
  soma_position : Option (List ℚ)
deriving DecidableEq

/-- A spike train with no spikes and no annotations (placeholder default
for list access). -/
def defaultTrain : SpikeTrainData := ⟨[], none, none⟩

/-- In-memory content of a MEArec container as read by the sorting adapter:
the `spiketrains` sequence and the sampling rate `info['recordings']['fs']`. -/
structure SortContainer where
  spiketrains : List SpikeTrainData
  fs : ℚ
deriving DecidableEq

/-- The list comprehension of source line 106,
`[int(st.annotations['unit_id']) for st in recgen.spiketrains]`: reading an
absent `unit_id` annotation raises a `KeyError`. -/
def extractUnitIds : List SpikeTrainData → Except String (List ℤ)
  | [] => Except.ok []
  | st :: sts =>
    match st.unit_id with
    | none => Except.error "KeyError: unit_id"
    | some u =>
      match extractUnitIds sts with
      | Except.error e => Except.error e
      | Except.ok us => Except.ok (u :: us)

/-- Source lines 105-108: the presence test `'unit_id' in
recgen.spiketrains[0].annotations` looks only at the FIRST spike train
(`spiketrains[0]` raises `IndexError` on an empty collection); on success
either all annotations are read or positional indices `0..N-1` are used. -/
def computeUnitIds (sts : List SpikeTrainData) : Except String (List ℤ) :=
  match sts with
  | [] => Except.error "IndexError: list index out of range"
  | st0 :: _ =>
    if st0.unit_id.isSome then extractUnitIds sts
    else Except.ok ((List.range sts.length).map Int.ofNat)

/-- The loop body of source lines 113-114: for each `(u, st)` pair,
`st.annotations['soma_position']` is read (raising `KeyError` when absent)
and stored as the unit property `soma_location` of unit `u`. -/
def extractSoma : List (ℤ × SpikeTrainData) → Except String (List (ℤ × List ℚ))
  | [] => Except.ok []
  | (u, st) :: rest =>
    match st.soma_position with
    | none => Except.error "KeyError: soma_position"
    | some pos =>
      match extractSoma rest with
      | Except.error e => Except.error e
      | Except.ok ps => Except.ok ((u, pos) :: ps)

/-- Source lines 112-114: the guard `'soma_position' in
self._spike_trains[0].annotations` looks only at the FIRST spike train;
when it holds, the loop runs over `zip(self._unit_ids, self._spike_trains)`. -/
def computeSomaProps (uids : List ℤ) (sts : List SpikeTrainData) :
    Except String (List (ℤ × List ℚ)) :=
  match sts with
  | [] => Except.ok []
  | st0 :: _ =>
    if st0.soma_position.isSome then extractSoma (uids.zip sts) else Except.ok []

/-- State of a constructed `MEArecSortingExtractor` (fields set by
`_initialize`, source lines 101-114); the `soma_location` unit properties
are modelled as an association list unit ↦ position. `fs` is the stored
value of `info['recordings']['fs']` tagged as Hz (source line 110). -/
structure MEArecSortingExtractor where
  num_units : ℕ
  unit_ids : List ℤ
  spike_trains : List SpikeTrainData
  fs : ℚ
  somaProps : List (ℤ × List ℚ)
deriving DecidableEq

/-- The pure part of `MEArecSortingExtractor._initialize`
(source lines 101-114). -/
def sortOfContainer (c : SortContainer) : Except String MEArecSortingExtractor :=
  match computeUnitIds c.spiketrains with
  | Except.error e => Except.error e
  | Except.ok uids =>
    match computeSomaProps uids c.spiketrains with
    | Except.error e => Except.error e
    | Except.ok props =>
      Except.ok
        { num_units := c.spiketrains.length
          unit_ids := uids
          spike_trains := c.spiketrains
          fs := c.fs
          somaProps := props }

/-- `MEArecSortingExtractor.__init__` including the dependency check made
by `_initialize` (source line 102). -/
def MEArecSortingExtractor.init (env : PyEnv) (c : SortContainer) :
    Except String MEArecSortingExtractor :=
  match load_required_modules env with
  | Except.error e => Except.error e
  | Except.ok _ => sortOfContainer c

/-- `getUnitIds` (source lines 116-119). -/
def MEArecSortingExtractor.getUnitIds (e : MEArecSortingExtractor) : List ℤ :=
  e.unit_ids

/-- `getNumUnits` (source lines 121-124). -/
def MEArecSortingExtractor.getNumUnits (e : MEArecSortingExtractor) : ℕ :=
  e.num_units

/-- Python `list.index(x)` (source line 133): the index of the first
element equal to `x`, or a `ValueError` (here `none`) when absent. -/
def listIndex (uid : ℤ) : List ℤ → Option ℕ
  | [] => none
  | x :: xs => if x = uid then some 0 else (listIndex uid xs).map Nat.succ

/-- The window test of source line 135, `(start_frame <= times) & (times <
end_frame)`, applied to one (unrounded) sample-valued time; a missing
`end_frame` stands for `np.Inf`, against which every time compares less. -/
def windowPred (s : ℤ) (en : Option ℤ) (t : ℚ) : Bool :=
  decide ((s : ℚ) ≤ t) &&
    (match en with
     | none => true
     | some e2 => decide (t < (e2 : ℚ)))

/-- `getUnitSpikeTrain` (source lines 126-136): defaults `start_frame = 0`
and `end_frame = np.Inf`; the spike train is located by
`getUnitIds().index(unit_id)` (by value, `ValueError` when absent); its
times are rescaled to samples by multiplying with the stored rate; the
window filter runs on the UNROUNDED sample values, and only the surviving
values are rounded with `np.rint` and cast to int. -/
def MEArecSortingExtractor.getUnitSpikeTrain (e : MEArecSortingExtractor)
    (unit_id : ℤ) (start_frame : Option ℤ) (end_frame : Option ℤ) :
    Except String (List ℤ) :=
  let s : ℤ := start_frame.getD 0
  match listIndex unit_id e.unit_ids with
  | none => Except.error "ValueError: unit_id is not in list"
  | some idx =>
    let st := e.spike_trains.getD idx defaultTrain
    let times := st.times.map (fun t => t * e.fs)
    Except.ok ((times.filter (windowPred s end_frame)).map rint)

/-- A filesystem path as the write routines inspect it: whether it is an
existing directory, and its final name component (from which `pathlib`
computes the suffix). -/
structure SavePath where
  isDir : Bool
  name : String
deriving DecidableEq

/-- `pathlib.PurePath.suffix` on a final name component: the substring from
the last dot onwards, provided that dot is neither the first nor the last
character; otherwise the empty string. -/
def pathSuffix (name : String) : String :=
  let cs := name.toList
  match ((cs.enum.filter (fun p => p.2 == '.')).map Prod.fst).getLast? with
  | none => ""
  | some i => if 0 < i ∧ i < cs.length - 1 then String.mk (cs.drop i) else ""

/-- The error message of source lines 88 and 172 (the original wraps
`save_path` in single quotes). -/
def usageErrorMsg : String := "Provide a folder or an .h5/.hdf5 as save_path"

/-- Source lines 74-77 / 153-156: a directory path is rewritten to the
default file name inside it. -/
def resolveSavePath (p : SavePath) (defaultName : String) : SavePath :=
  if p.isDir then { isDir := false, name := defaultName } else p

/-- A generic `RecordingExtractor` as consumed by `writeRecording`: the
methods and the channel `location` property store it reads. -/
structure RecordingSource where
  fs : ℚ
  traces : List (List ℚ)
  channel_ids : List ℕ
  channelProps : List (ℕ × List ℚ)

/-- `'location' in recording.getChannelPropertyNames()` (source line 81):
the property name is listed when some channel carries it. -/
def hasLocation (r : RecordingSource) : Bool :=
  !r.channelProps.isEmpty

/-- The list comprehension of source lines 82-83:
`[recording.getChannelProperty(chan, 'location') for chan in
recording.getChannelIds()]`; a channel without the property raises
`KeyError`. -/
def gatherPositions (props : List (ℕ × List ℚ)) : List ℕ → Except String (List (List ℚ))
  | [] => Except.ok []
  | ch :: rest =>
    match lookupProp props ch with
    | none => Except.error "KeyError: location"
    | some pos =>
      match gatherPositions props rest with
      | Except.error e => Except.error e
      | Except.ok ps => Except.ok (pos :: ps)

/-- What `mr.save_recording_generator` receives on the recording write path
(source lines 79-86): the final file name, the `info` sampling rate, the
traces, and the optional `channel_positions`. -/
structure SavedRecording where
  filename : String
  fs : ℚ
  recordings : List (List ℚ)
  channel_positions : Option (List (List ℚ))

/-- `MEArecRecordingExtractor.writeRecording` (source lines 62-88). -/
def writeRecording (env : PyEnv) (rec : RecordingSource) (p : SavePath) :
    Except String SavedRecording :=
  match load_required_modules env with
  | Except.error e => Except.error e
  | Except.ok _ =>
    if pathSuffix (resolveSavePath p "recording.h5").name = ".h5" ∨
        pathSuffix (resolveSavePath p "recording.h5").name = ".hdf5" then
      if hasLocation rec then
        match gatherPositions rec.channelProps rec.channel_ids with
        | Except.error e => Except.error e
        | Except.ok positions =>
          Except.ok
            ⟨(resolveSavePath p "recording.h5").name, rec.fs, rec.traces, some positions⟩
      else Except.ok ⟨(resolveSavePath p "recording.h5").name, rec.fs, rec.traces, none⟩
    else Except.error usageErrorMsg

/-- A generic `SortingExtractor` as consumed by `writeSorting`: its unit
ids and, for each unit, the integer sample indices
`getUnitSpikeTrain(u)` returns. -/
structure SortingSource where
  unit_ids : List ℤ
  spike_train : ℤ → List ℤ

/-- A `neo.SpikeTrain` as built by `writeSorting` (source lines 161-164):
times in seconds, `t_start`/`t_stop` bounds, and the `unit_id` annotation. -/
structure NeoSpikeTrain where
  times : List ℚ
  t_start : ℚ
  t_stop : ℚ
  unit_id : ℤ
deriving DecidableEq

/-- The error `np.min` raises on an empty array (source line 162). -/
def emptyReduceMsg : String :=
  "ValueError: zero-size array to reduction operation minimum which has no identity"

/-- One iteration of the loop of source lines 160-165: the unit's sample
indices are divided by the sampling frequency to give times in seconds,
`t_start`/`t_stop` are `np.min`/`np.max` of those times (raising on an
empty train), and the train is annotated with the originating unit id. -/
def buildNeoTrain (fsr : ℚ) (u : ℤ) (samples : List ℤ) : Except String NeoSpikeTrain :=
  match samples with
  | [] => Except.error emptyReduceMsg
  | a :: rest =>
    let ts := (a :: rest).map (fun n => (n : ℚ) / fsr)
    Except.ok
      { times := ts
        t_start := (rest.map (fun n => (n : ℚ) / fsr)).foldl min ((a : ℚ) / fsr)
        t_stop := (rest.map (fun n => (n : ℚ) / fsr)).foldl max ((a : ℚ) / fsr)
        unit_id := u }

/-- The full loop of source lines 159-165, stopping at the first raised
exception. -/
def buildTrains (fsr : ℚ) (g : ℤ → List ℤ) : List ℤ → Except String (List NeoSpikeTrain)
  | [] => Except.ok []
  | u :: us =>
    match buildNeoTrain fsr u (g u) with
    | Except.error e => Except.error e
    | Except.ok st =>
      match buildTrains fsr g us with
      | Except.error e => Except.error e
      | Except.ok sts => Except.ok (st :: sts)

/-- What `mr.save_recording_generator` receives on the sorting write path
(source lines 167-170). -/
structure SavedSorting where
  filename : String
  fs : ℚ
  spiketrains : List NeoSpikeTrain

/-- `MEArecSortingExtractor.writeSorting` (source lines 138-172). -/
def writeSorting (env : PyEnv) (ss : SortingSource) (p : SavePath) (fsr : ℚ) :
    Except String SavedSorting :=
  match load_required_modules env with
  | Except.error e => Except.error e
  | Except.ok _ =>
    if pathSuffix (resolveSavePath p "sorting.h5").name = ".h5" ∨
        pathSuffix (resolveSavePath p "sorting.h5").name = ".hdf5" then
      match buildTrains fsr ss.spike_train ss.unit_ids with
      | Except.error e => Except.error e
      | Except.ok sts => Except.ok ⟨(resolveSavePath p "sorting.h5").name, fsr, sts⟩
    else Except.error usageErrorMsg

/-- Spec-side reading of the window filter actually implemented by
`getUnitSpikeTrain`: convert each stored time to (unrounded) sample units,
keep those lying in the half-open window `[s, en)`, and round the kept
values with `np.rint`. -/
def windowedSpikeIndices (times : List ℚ) (fsr : ℚ) (s en : ℤ) : List ℤ :=
  ((times.map (fun t => t * fsr)).filter (windowPred s (some en))).map rint

/-- Concrete container for C1: one spike train (no annotations) whose only
spike lands at 199.5 sample units for `fs = 1000` Hz. -/
def cC1 : SortContainer := ⟨[⟨[399 / 2000], none, none⟩], 1000⟩

/-- The sorting-extractor state produced from `cC1`. -/
def cC1e : MEArecSortingExtractor := ⟨1, [0], [⟨[399 / 2000], none, none⟩], 1000, []⟩

/-- Concrete container for C2: the first spike train carries `unit_id = 5`,
the second carries no `unit_id` annotation. -/
def cC2 : SortContainer := ⟨[⟨[1 / 10], some 5, none⟩, ⟨[1 / 5], none, none⟩], 1000⟩

/-- Concrete container with every spike train annotated with a
(non-positional) `unit_id`. -/
def cA : SortContainer := ⟨[⟨[1 / 10], some 7, none⟩, ⟨[1 / 5], some 3, none⟩], 1000⟩

/-- The sorting-extractor state produced from `cA`. -/
def cAe : MEArecSortingExtractor :=
  ⟨2, [7, 3], [⟨[1 / 10], some 7, none⟩, ⟨[1 / 5], some 3, none⟩], 1000, []⟩

/-- Concrete container with no `unit_id` annotations at all. -/
def cP : SortContainer := ⟨[⟨[1 / 10], none, none⟩, ⟨[1 / 5], none, none⟩], 1000⟩

/-- The sorting-extractor state produced from `cP`. -/
def cPe : MEArecSortingExtractor :=
  ⟨2, [0, 1], [⟨[1 / 10], none, none⟩, ⟨[1 / 5], none, none⟩], 1000, []⟩

/-- Concrete container for C3: the first spike train carries a
`soma_position` annotation, the second does not. -/
def cC3 : SortContainer :=
  ⟨[⟨[1 / 10], none, some [0, 0, 0]⟩, ⟨[1 / 5], none, none⟩], 1000⟩

/-- Concrete container whose spike trains all carry `soma_position`. -/
def cS : SortContainer :=
  ⟨[⟨[1 / 10], none, some [1, 2, 3]⟩, ⟨[1 / 5], none, some [4, 5, 6]⟩], 1000⟩

/-- Concrete recording container whose position array matches the channel
count. -/
def c4a : RecContainer := ⟨[[1, 2], [3, 4]], 100, [[0, 0, 0], [1, 1, 0]]⟩

/-- The recording-extractor state produced from `c4a`. -/
def c4ae : MEArecRecordingExtractor := MEArecRecordingExtractor.ofContainer c4a

/-- Concrete recording container whose position array is shorter than the
channel count. -/
def c4b : RecContainer := ⟨[[1, 2], [3, 4]], 100, [[0, 0, 0]]⟩

/-- The recording-extractor state produced from `c4b`. -/
def c4be : MEArecRecordingExtractor := MEArecRecordingExtractor.ofContainer c4b

/-- Concrete recording container with 3 channels and 20 frames. -/
def rec3 : RecContainer :=
  { recordings :=
      (List.range 3).map (fun ch => (List.range 20).map (fun j => ((20 * ch + j : ℕ) : ℚ)))
    fs := 1000
    channel_positions := [] }

/-- The recording-extractor state produced from `rec3`. -/
def rec3e : MEArecRecordingExtractor := MEArecRecordingExtractor.ofContainer rec3

/-- Trivial recording source (for the write-path claims). -/
def recW0 : RecordingSource := ⟨10, [[1]], [0], []⟩

/-- Trivial sorting source whose single unit has one spike. -/
def ssW : SortingSource := ⟨[0], fun _ => [1]⟩

/-- Sorting source whose single unit has an empty spike-sample sequence. -/
def ssEmpty : SortingSource := ⟨[0], fun _ => []⟩

/-- Sorting extractor with non-positional unit identifiers (for C7). -/
def eC7 : MEArecSortingExtractor :=
  ⟨2, [10, 20], [⟨[1 / 10], some 10, none⟩, ⟨[3 / 10], some 20, none⟩], 1000, []⟩

theorem ratFloor_eq (q : ℚ) : q.floor = ⌊q⌋ := by
  rw [Rat.floor_def', Rat.floor_def]

theorem rint_ge_floor (q : ℚ) : ⌊q⌋ ≤ rint q := by
  unfold rint
  rw [ratFloor_eq]
  split_ifs <;> omega

theorem rint_le_floor_succ (q : ℚ) : rint q ≤ ⌊q⌋ + 1 := by
  unfold rint
  rw [ratFloor_eq]
  split_ifs <;> omega

theorem rint_mono {x y : ℚ} (h : x ≤ y) : rint x ≤ rint y := by
  rcases lt_or_le ⌊x⌋ ⌊y⌋ with hf | hf
  · calc rint x ≤ ⌊x⌋ + 1 := rint_le_floor_succ x
      _ ≤ ⌊y⌋ := by omega
      _ ≤ rint y := rint_ge_floor y
  · have hfe : ⌊x⌋ = ⌊y⌋ := le_antisymm (Int.floor_le_floor h) hf
    unfold rint
    rw [ratFloor_eq, ratFloor_eq, hfe]
    have hxy : x - (⌊y⌋ : ℚ) ≤ y - (⌊y⌋ : ℚ) := by linarith
    split_ifs <;> first | omega | linarith

theorem rint_lower {s : ℤ} {q : ℚ} (h : (s : ℚ) ≤ q) : s ≤ rint q :=
  le_trans (Int.le_floor.mpr h) (rint_ge_floor q)

theorem rint_upper {en : ℤ} {q : ℚ} (h : q < (en : ℚ)) : rint q ≤ en := by
  have hf : ⌊q⌋ < en := Int.floor_lt.mpr h
  have := rint_le_floor_succ q
  omega

theorem windowPred_some_iff {s en : ℤ} {t : ℚ} :
    windowPred s (some en) t = true ↔ (s : ℚ) ≤ t ∧ t < (en : ℚ) := by
  simp [windowPred]

/-- C1: FALSE as stated. The container `cC1` holds a single spike at time
0.1995 s, i.e. 199.5 sample units at 1000 Hz. `getUnitSpikeTrain(0, 100,
200)` keeps it (the filter runs on the unrounded value 199.5 < 200) and
then rounds it with `np.rint` to 200, so the returned index 200 violates
the claimed bound `index < end_frame = 200`. -/
theorem C1_counterexample :
    MEArecSortingExtractor.init allDeps cC1 = Except.ok cC1e ∧
    cC1e.getUnitSpikeTrain 0 (some 100) (some 200) = Except.ok [200] ∧
    ¬((200 : ℤ) < 200) := by
  refine ⟨by with_unfolding_all rfl, by with_unfolding_all rfl, by decide⟩

/-- C1 (amended): for a unit found at index `idx` of `unit_ids`,
`getUnitSpikeTrain(uid, s, en)` returns `rint(t * fs)` for exactly those
stored spikes whose UNROUNDED sample value `t * fs` lies in the half-open
window `[s, en)`; consequently every returned index `i` satisfies
`s ≤ i ≤ en` (the upper endpoint can be attained by rounding up), and the
result is ascending whenever the stored sample values are ascending. -/
theorem C1_amended (e : MEArecSortingExtractor) (uid s en : ℤ) (idx : ℕ)
    (hidx : listIndex uid e.unit_ids = some idx) (res : List ℤ)
    (hres : e.getUnitSpikeTrain uid (some s) (some en) = Except.ok res) :
    res = windowedSpikeIndices (e.spike_trains.getD idx defaultTrain).times e.fs s en ∧
    (∀ x ∈ res, s ≤ x ∧ x ≤ en) ∧
    (((e.spike_trains.getD idx defaultTrain).times.map (fun t => t * e.fs)).Pairwise
        (· ≤ ·) →
      res.Pairwise (· ≤ ·)) := by
  unfold MEArecSortingExtractor.getUnitSpikeTrain at hres
  rw [hidx] at hres
  simp only [Except.ok.injEq] at hres
  subst hres
  refine ⟨rfl, ?_, ?_⟩
  · intro x hx
    rcases List.mem_map.mp hx with ⟨t, ht, hrt⟩
    rcases windowPred_some_iff.mp (List.of_mem_filter ht) with ⟨hs, hen⟩
    subst hrt
    exact ⟨rint_lower hs, rint_upper hen⟩
  · intro hsorted
    exact (hsorted.filter _).map rint (fun a b hab => rint_mono hab)

/-- C1 witness: the amended statement applied to the concrete extractor
`cC1e`, unit 0, window `[100, 200)`. -/
theorem C1_witness :
    ([(200 : ℤ)] =
        windowedSpikeIndices (cC1e.spike_trains.getD 0 defaultTrain).times cC1e.fs 100 200) ∧
    (∀ x ∈ [(200 : ℤ)], 100 ≤ x ∧ x ≤ 200) ∧
    (((cC1e.spike_trains.getD 0 defaultTrain).times.map (fun t => t * cC1e.fs)).Pairwise
        (· ≤ ·) →
      ([(200 : ℤ)]).Pairwise (· ≤ ·)) :=
  C1_amended cC1e 0 100 200 0 (by rfl) [200] (by with_unfolding_all rfl)

theorem extractUnitIds_ok {sts : List SpikeTrainData}
    (h : ∀ st ∈ sts, st.unit_id.isSome = true) :
    extractUnitIds sts = Except.ok (sts.map (fun st => st.unit_id.getD 0)) := by
  induction sts with
  | nil => rfl
  | cons st sts ih =>
    rcases hu : st.unit_id with _ | u
    · exact absurd (h st (List.mem_cons_self _ _)) (by simp [hu])
    · rw [extractUnitIds, hu, ih (fun s hs => h s (List.mem_cons_of_mem _ hs))]
      simp [hu]

theorem extractUnitIds_error {sts : List SpikeTrainData}
    (h : ∃ st ∈ sts, st.unit_id = none) :
    extractUnitIds sts = Except.error "KeyError: unit_id" := by
  induction sts with
  | nil => rcases h with ⟨st, hmem, _⟩; cases hmem
  | cons st sts ih =>
    rcases hu : st.unit_id with _ | u
    · rw [extractUnitIds, hu]
    · rcases h with ⟨st2, hmem, hnone⟩
      rcases List.mem_cons.mp hmem with rfl | hmem2
      · rw [hu] at hnone; cases hnone
      · rw [extractUnitIds, hu, ih ⟨st2, hmem2, hnone⟩]

theorem extractUnitIds_length {sts : List SpikeTrainData} {uids : List ℤ}
    (h : extractUnitIds sts = Except.ok uids) : uids.length = sts.length := by
  induction sts generalizing uids with
  | nil => cases h; rfl
  | cons st sts ih =>
    rw [extractUnitIds] at h
    rcases hu : st.unit_id with _ | u <;> rw [hu] at h
    · cases h
    · cases he : extractUnitIds sts with
      | error m => rw [he] at h; cases h
      | ok us => rw [he] at h; cases h; simp [ih he]

theorem computeUnitIds_length {sts : List SpikeTrainData} {uids : List ℤ}
    (h : computeUnitIds sts = Except.ok uids) : uids.length = sts.length := by
  cases sts with
  | nil => cases h
  | cons st0 rest =>
    rw [computeUnitIds] at h
    by_cases h0 : st0.unit_id.isSome = true
    · rw [if_pos h0] at h; exact extractUnitIds_length h
    · rw [if_neg h0] at h; cases h; simp

theorem extractSoma_ok {prs : List (ℤ × SpikeTrainData)}
    (h : ∀ pr ∈ prs, pr.2.soma_position.isSome = true) :
    extractSoma prs =
      Except.ok (prs.map (fun pr => (pr.1, pr.2.soma_position.getD []))) := by
  induction prs with
  | nil => rfl
  | cons pr prs ih =>
    obtain ⟨u, st⟩ := pr
    rcases hs : st.soma_position with _ | pos
    · exact absurd (h (u, st) (List.mem_cons_self _ _)) (by simp [hs])
    · rw [extractSoma, hs, ih (fun p hp => h p (List.mem_cons_of_mem _ hp))]
      simp [hs]

theorem extractSoma_error {prs : List (ℤ × SpikeTrainData)}
    (h : ∃ pr ∈ prs, pr.2.soma_position = none) :
    extractSoma prs = Except.error "KeyError: soma_position" := by
  induction prs with
  | nil => rcases h with ⟨pr, hmem, _⟩; cases hmem
  | cons pr prs ih =>
    obtain ⟨u, st⟩ := pr
    rcases hs : st.soma_position with _ | pos
    · rw [extractSoma, hs]
    · rcases h with ⟨pr2, hmem, hnone⟩
      rcases List.mem_cons.mp hmem with rfl | hmem2
      · rw [hs] at hnone; cases hnone
      · rw [extractSoma, hs, ih ⟨pr2, hmem2, hnone⟩]

theorem mem_zip_of_mem {us : List ℤ} {sts : List SpikeTrainData} {st : SpikeTrainData}
    (h : st ∈ sts) (hlen : sts.length ≤ us.length) : ∃ u, (u, st) ∈ us.zip sts := by
  induction sts generalizing us with
  | nil => cases h
  | cons s sts ih =>
    cases us with
    | nil => simp at hlen
    | cons u us =>
      rcases List.mem_cons.mp h with rfl | h2
      · exact ⟨u, List.mem_cons_self _ _⟩
      · rcases ih h2 (by simpa using Nat.le_of_succ_le_succ hlen) with ⟨u2, hu2⟩
        exact ⟨u2, List.mem_cons_of_mem _ hu2⟩

theorem sortOfContainer_ok {c : SortContainer} {e : MEArecSortingExtractor}
    (h : sortOfContainer c = Except.ok e) :
    ∃ uids props, computeUnitIds c.spiketrains = Except.ok uids ∧
      computeSomaProps uids c.spiketrains = Except.ok props ∧
      e = ⟨c.spiketrains.length, uids, c.spiketrains, c.fs, props⟩ := by
  unfold sortOfContainer at h
  cases hu : computeUnitIds c.spiketrains with
  | error m => rw [hu] at h; cases h
  | ok uids =>
    rw [hu] at h
    dsimp only at h
    cases hp : computeSomaProps uids c.spiketrains with
    | error m => rw [hp] at h; cases h
    | ok props =>
      rw [hp] at h
      cases h
      exact ⟨uids, props, rfl, hp, rfl⟩

theorem sortOfContainer_error_units {c : SortContainer} {m : String}
    (hu : computeUnitIds c.spiketrains = Except.error m) :
    sortOfContainer c = Except.error m := by
  unfold sortOfContainer; rw [hu]

theorem sortOfContainer_ok_of {c : SortContainer} {uids : List ℤ}
    {props : List (ℤ × List ℚ)}
    (hu : computeUnitIds c.spiketrains = Except.ok uids)
    (hp : computeSomaProps uids c.spiketrains = Except.ok props) :
    sortOfContainer c =
      Except.ok ⟨c.spiketrains.length, uids, c.spiketrains, c.fs, props⟩ := by
  unfold sortOfContainer
  rw [hu]
  dsimp only
  rw [hp]

theorem sortOfContainer_error_soma {c : SortContainer} {uids : List ℤ} {m : String}
    (hu : computeUnitIds c.spiketrains = Except.ok uids)
    (hp : computeSomaProps uids c.spiketrains = Except.error m) :
    sortOfContainer c = Except.error m := by
  unfold sortOfContainer
  rw [hu]
  dsimp only
  rw [hp]

theorem init_allDeps (c : SortContainer) :
    MEArecSortingExtractor.init allDeps c = sortOfContainer c := rfl

/-- C2: FALSE as stated. In `cC2` the second spike train lacks the
`unit_id` annotation, so by the claim `unit_ids()` should be the positional
`[0, 1]`; but the code tests only the FIRST train's annotations, then reads
`annotations['unit_id']` of every train, so construction raises `KeyError`
and no extractor (hence no `unit_ids()`) exists at all. -/
theorem C2_counterexample :
    MEArecSortingExtractor.init allDeps cC2 = Except.error "KeyError: unit_id" ∧
    cC2.spiketrains.map SpikeTrainData.unit_id = [some 5, none] :=
  ⟨rfl, rfl⟩

/-- C2 (amended): the fallback decision is made from the FIRST spike train
only. If the first train carries `unit_id` then `unit_ids()` is every
train's `unit_id` cast to integer (in stored order), and construction
raises a lookup error when any later train lacks the annotation; only when
the first train lacks `unit_id` are the positional indices `0..N-1` used. -/
theorem C2_amended (c : SortContainer) (st0 : SpikeTrainData)
    (rest : List SpikeTrainData) (hc : c.spiketrains = st0 :: rest) :
    (st0.unit_id.isSome = true →
      ((∀ st ∈ c.spiketrains, st.unit_id.isSome = true) →
        ∀ e, MEArecSortingExtractor.init allDeps c = Except.ok e →
          e.unit_ids = c.spiketrains.map (fun st => st.unit_id.getD 0)) ∧
      ((∃ st ∈ c.spiketrains, st.unit_id = none) →
        MEArecSortingExtractor.init allDeps c = Except.error "KeyError: unit_id")) ∧
    (st0.unit_id = none →
      ∀ e, MEArecSortingExtractor.init allDeps c = Except.ok e →
        e.unit_ids = (List.range c.spiketrains.length).map Int.ofNat) := by
  have hcu : ∀ b : Except String (List ℤ), computeUnitIds c.spiketrains = b →
      (if st0.unit_id.isSome then extractUnitIds c.spiketrains
       else Except.ok ((List.range c.spiketrains.length).map Int.ofNat)) = b := by
    intro b hb
    rw [← hb, hc, computeUnitIds]
  refine ⟨fun h0 => ⟨?_, ?_⟩, ?_⟩
  · intro hall e he
    rw [init_allDeps] at he
    rcases sortOfContainer_ok he with ⟨uids, props, hu, hp, hee⟩
    have : extractUnitIds c.spiketrains = Except.ok uids := by
      have := hcu _ hu
      rwa [if_pos h0] at this
    rw [extractUnitIds_ok hall] at this
    cases this
    rw [hee]
  · intro hmiss
    rw [init_allDeps]
    apply sortOfContainer_error_units
    rw [hc, computeUnitIds, ← hc, if_pos h0]
    exact extractUnitIds_error hmiss
  · intro h0 e he
    rw [init_allDeps] at he
    rcases sortOfContainer_ok he with ⟨uids, props, hu, hp, hee⟩
    have : (Except.ok ((List.range c.spiketrains.length).map Int.ofNat) :
        Except String (List ℤ)) = Except.ok uids := by
      have := hcu _ hu
      rwa [if_neg (by simp [h0])] at this
    cases this
    rw [hee]

/-- C2 witness: the amended statement applied to the three concrete
containers `cA` (all trains annotated), `cC2` (the first train annotated,
the second not), and `cP` (no train annotated). -/
theorem C2_witness :
    (cAe.unit_ids = cA.spiketrains.map (fun st => st.unit_id.getD 0)) ∧
    (MEArecSortingExtractor.init allDeps cC2 = Except.error "KeyError: unit_id") ∧
    (cPe.unit_ids = (List.range cP.spiketrains.length).map Int.ofNat) := by
  refine ⟨?_, ?_, ?_⟩
  · exact ((C2_amended cA _ _ rfl).1 (by decide)).1 (by decide) cAe (by rfl)
  · exact ((C2_amended cC2 _ _ rfl).1 (by decide)).2
      ⟨⟨[1 / 5], none, none⟩, List.mem_cons_of_mem _ (List.mem_cons_self _ _), rfl⟩
  · exact (C2_amended cP _ _ rfl).2 rfl cPe (by rfl)

/-- C3: FALSE as stated. In `cC3` the first spike train carries
`soma_position` but the second does not; the claim promises that the second
unit is simply left without the property and construction still succeeds,
yet the code reads `annotations['soma_position']` of EVERY train once the
first has it, so construction raises `KeyError` instead. -/
theorem C3_counterexample :
    MEArecSortingExtractor.init allDeps cC3 = Except.error "KeyError: soma_position" ∧
    (cC3.spiketrains.headD defaultTrain).soma_position.isSome = true ∧
    (cC3.spiketrains.getD 1 defaultTrain).soma_position = none :=
  ⟨rfl, rfl, rfl⟩

/-- C3 (amended): the guard looks only at the FIRST spike train. When the
first train carries `soma_position`, every unit gets the `soma_location`
property read from its train, and construction raises a lookup error if any
train lacks the annotation; when the first train lacks it, no properties
are set at all (even for units that do carry the annotation). -/
theorem C3_amended (c : SortContainer) (st0 : SpikeTrainData)
    (rest : List SpikeTrainData) (hc : c.spiketrains = st0 :: rest) (uids : List ℤ)
    (hu : computeUnitIds c.spiketrains = Except.ok uids) :
    (st0.soma_position = none →
      ∀ e, MEArecSortingExtractor.init allDeps c = Except.ok e → e.somaProps = []) ∧
    (st0.soma_position.isSome = true →
      ((∀ st ∈ c.spiketrains, st.soma_position.isSome = true) →
        MEArecSortingExtractor.init allDeps c =
          Except.ok
            ⟨c.spiketrains.length, uids, c.spiketrains, c.fs,
              (uids.zip c.spiketrains).map
                (fun pr => (pr.1, pr.2.soma_position.getD []))⟩) ∧
      ((∃ st ∈ c.spiketrains, st.soma_position = none) →
        MEArecSortingExtractor.init allDeps c =
          Except.error "KeyError: soma_position")) := by
  have hcs : ∀ b : Except String (List (ℤ × List ℚ)),
      computeSomaProps uids c.spiketrains = b ↔
      (if st0.soma_position.isSome then extractSoma (uids.zip c.spiketrains)
       else Except.ok []) = b := by
    intro b
    rw [hc, computeSomaProps]
  refine ⟨?_, fun h0 => ⟨?_, ?_⟩⟩
  · intro h0 e he
    rw [init_allDeps] at he
    rcases sortOfContainer_ok he with ⟨uids2, props, hu2, hp, hee⟩
    rw [hu] at hu2
    cases hu2
    have : (Except.ok [] : Except String (List (ℤ × List ℚ))) = Except.ok props := by
      have := (hcs _).mp hp
      rwa [if_neg (by simp [h0])] at this
    cases this
    rw [hee]
  · intro hall
    rw [init_allDeps]
    have hp : computeSomaProps uids c.spiketrains =
        Except.ok ((uids.zip c.spiketrains).map
          (fun pr => (pr.1, pr.2.soma_position.getD []))) := by
      rw [hcs, if_pos h0]
      exact extractSoma_ok (fun pr hpr =>
        hall pr.2 (List.of_mem_zip hpr).2)
    exact sortOfContainer_ok_of hu hp
  · intro hmiss
    rw [init_allDeps]
    apply sortOfContainer_error_soma hu
    rw [hcs, if_pos h0]
    apply extractSoma_error
    rcases hmiss with ⟨st, hmem, hnone⟩
    rcases mem_zip_of_mem hmem (le_of_eq (computeUnitIds_length hu).symm)
      with ⟨u, hzip⟩
    exact ⟨(u, st), hzip, hnone⟩

/-- C3 witness: the amended statement applied to `cP` (the first train lacks
`soma_position`), `cS` (every train carries it), and `cC3` (the first
carries it, the second does not). -/
theorem C3_witness :
    (cPe.somaProps = []) ∧
    (MEArecSortingExtractor.init allDeps cS =
      Except.ok
        ⟨cS.spiketrains.length, [0, 1], cS.spiketrains, cS.fs,
          (([0, 1] : List ℤ).zip cS.spiketrains).map
            (fun pr => (pr.1, pr.2.soma_position.getD []))⟩) ∧
    (MEArecSortingExtractor.init allDeps cC3 =
      Except.error "KeyError: soma_position") := by
  refine ⟨?_, ?_, ?_⟩
  · exact (C3_amended cP _ _ rfl [0, 1] (by rfl)).1 rfl cPe (by rfl)
  · exact ((C3_amended cS _ _ rfl [0, 1] (by rfl)).2 (by decide)).1 (by decide)
  · exact ((C3_amended cC3 _ _ rfl [0, 1] (by rfl)).2 (by decide)).2
      ⟨⟨[1 / 5], none, none⟩, List.mem_cons_of_mem _ (List.mem_cons_self _ _), rfl⟩

theorem recInit_ok {env : PyEnv} {c : RecContainer} {e : MEArecRecordingExtractor}
    (h : MEArecRecordingExtractor.init env c = Except.ok e) :
    e = MEArecRecordingExtractor.ofContainer c := by
  unfold MEArecRecordingExtractor.init at h
  cases hl : load_required_modules env with
  | error m => rw [hl] at h; cases h
  | ok u => rw [hl] at h; cases h; rfl

theorem find_enumFrom (l : List (List ℚ)) (k ch : ℕ) :
    ((List.enumFrom k l).find? (fun p => p.1 == k + ch)).map Prod.snd = l[ch]? := by
  induction l generalizing k ch with
  | nil => rfl
  | cons a l ih =>
    cases ch with
    | zero =>
      rw [List.enumFrom_cons, List.find?_cons_of_pos _ (by simp)]
      simp
    | succ ch =>
      rw [List.enumFrom_cons, List.find?_cons_of_neg _ (by simp),
        List.getElem?_cons_succ]
      have h1 : k + (ch + 1) = (k + 1) + ch := by omega
      rw [h1]
      exact ih (k + 1) ch

theorem lookup_enum (l : List (List ℚ)) (ch : ℕ) :
    lookupProp l.enum ch = l[ch]? := by
  have h := find_enumFrom l 0 ch
  rw [Nat.zero_add] at h
  exact h

/-- C4: on construction of the recording adapter, when the loaded
position-array length equals the channel count (the first dimension of the
trace matrix) every channel's `location` property is row `ch` of the
positions array, and when the lengths differ no channel gets a `location`
property at all. -/
theorem C4_locations (env : PyEnv) (c : RecContainer) (e : MEArecRecordingExtractor)
    (he : MEArecRecordingExtractor.init env c = Except.ok e) :
    (c.channel_positions.length = c.recordings.length →
      ∀ ch, lookupProp e.channelProps ch = c.channel_positions[ch]?) ∧
    (c.channel_positions.length ≠ c.recordings.length →
      ∀ ch, lookupProp e.channelProps ch = none) := by
  rw [recInit_ok he]
  unfold MEArecRecordingExtractor.ofContainer
  constructor
  · intro hlen ch
    rw [if_pos hlen, if_pos hlen]
    exact lookup_enum _ ch
  · intro hlen ch
    rw [if_neg hlen, if_neg hlen]
    rfl

/-- C4 witness: the statement applied to `c4a` (positions matching the
2 channels) at channel 1, and to `c4b` (1 position row for 2 channels) at
channel 0. -/
theorem C4_witness :
    lookupProp c4ae.channelProps 1 = c4a.channel_positions[1]? ∧
    lookupProp c4be.channelProps 0 = none := by
  constructor
  · exact (C4_locations allDeps c4a c4ae rfl).1 rfl 1
  · exact (C4_locations allDeps c4b c4be rfl).2 (by decide) 0

theorem map_range_take (l : List (List ℚ)) (nf : ℕ)
    (h : ∀ row ∈ l, row.length = nf) :
    (List.range l.length).map (fun ch => (l.getD ch []).take nf) = l := by
  induction l with
  | nil => rfl
  | cons a l ih =>
    have ha : a.length = nf := h a (List.mem_cons_self _ _)
    rw [List.length_cons, List.range_succ_eq_map, List.map_cons, List.map_map]
    congr 1
    · rw [List.getD_cons_zero, ← ha, List.take_length]
    · have hfun : ((fun ch => (((a :: l).getD ch []).take nf)) ∘ Nat.succ) =
          (fun ch => ((l.getD ch []).take nf)) := by
        funext ch
        simp
      rw [hfun]
      exact ih (fun row hr => h row (List.mem_cons_of_mem _ hr))

/-- C5: `getTraces` with all arguments omitted returns the whole
channel×frame matrix unchanged (for a rectangular trace matrix), and
`getTraces([2], 10, 20)` returns the 1×10 sub-matrix holding frames
`10..19` of channel 2. -/
theorem C5_traces (env : PyEnv) (c : RecContainer) (e : MEArecRecordingExtractor)
    (he : MEArecRecordingExtractor.init env c = Except.ok e)
    (hrect : ∀ row ∈ c.recordings, row.length = e.num_frames) :
    e.getTraces none none none = c.recordings ∧
    (2 < c.recordings.length → 20 ≤ e.num_frames →
      e.getTraces (some [2]) (some 10) (some 20) =
        [((c.recordings.getD 2 []).drop 10).take 10] ∧
      (((c.recordings.getD 2 []).drop 10).take 10).length = 10 ∧
      ∀ j, j < 10 →
        (((c.recordings.getD 2 []).drop 10).take 10).getD j 0 =
          (c.recordings.getD 2 []).getD (10 + j) 0) := by
  have hee := recInit_ok he
  subst hee
  constructor
  · show (List.range c.recordings.length).map
        (fun ch => ((c.recordings.getD ch []).drop 0).take
          ((MEArecRecordingExtractor.ofContainer c).num_frames - 0)) = c.recordings
    simp only [List.drop_zero, Nat.sub_zero]
    exact map_range_take _ _ hrect
  · intro h2 h20
    have hrow : (c.recordings.getD 2 []).length =
        (MEArecRecordingExtractor.ofContainer c).num_frames := by
      have hg : c.recordings.getD 2 [] = c.recordings[2] := by
        rw [List.getD_eq_getElem?_getD, List.getElem?_eq_getElem h2]
        rfl
      rw [hg]
      exact hrect _ (List.getElem_mem h2)
    refine ⟨rfl, ?_, ?_⟩
    · rw [List.length_take, List.length_drop, hrow]
      omega
    · intro j hj
      simp only [List.getD_eq_getElem?_getD, List.getElem?_take_of_lt hj,
        List.getElem?_drop]

/-- C5 witness: the statement applied to the concrete 3-channel, 20-frame
container `rec3`, with the element check at `j = 0`. -/
theorem C5_witness :
    rec3e.getTraces none none none = rec3.recordings ∧
    rec3e.getTraces (some [2]) (some 10) (some 20) =
      [((rec3.recordings.getD 2 []).drop 10).take 10] ∧
    (((rec3.recordings.getD 2 []).drop 10).take 10).length = 10 ∧
    (((rec3.recordings.getD 2 []).drop 10).take 10).getD 0 0 =
      (rec3.recordings.getD 2 []).getD 10 0 := by
  have h := C5_traces allDeps rec3 rec3e rfl (by decide)
  have h2 := h.2 (by decide) (by decide)
  exact ⟨h.1, h2.1, h2.2.1, h2.2.2 0 (by decide)⟩

/-- C9: `getChannelIds()` is always the dense positional range over the
first dimension of the loaded trace matrix. -/
theorem C9_channelIds (env : PyEnv) (c : RecContainer) (e : MEArecRecordingExtractor)
    (he : MEArecRecordingExtractor.init env c = Except.ok e) :
    e.getChannelIds = List.range c.recordings.length := by
  rw [recInit_ok he]
  rfl

/-- C9 witness: the statement applied to the concrete container `rec3`. -/
theorem C9_witness : rec3e.getChannelIds = List.range rec3.recordings.length :=
  C9_channelIds allDeps rec3 rec3e rfl

theorem gatherPositions_error_msg {props : List (ℕ × List ℚ)} {chs : List ℕ}
    {m : String} (h : gatherPositions props chs = Except.error m) :
    m = "KeyError: location" := by
  induction chs with
  | nil => cases h
  | cons ch rest ih =>
    rw [gatherPositions] at h
    cases hl : lookupProp props ch with
    | none => rw [hl] at h; cases h; rfl
    | some pos =>
      rw [hl] at h
      cases hg : gatherPositions props rest with
      | error m2 => rw [hg] at h; cases h; exact ih hg
      | ok ps => rw [hg] at h; cases h

theorem buildNeoTrain_error_msg {fsr : ℚ} {u : ℤ} {samples : List ℤ} {m : String}
    (h : buildNeoTrain fsr u samples = Except.error m) : m = emptyReduceMsg := by
  cases samples with
  | nil => cases h; rfl
  | cons a rest => cases h

theorem buildTrains_error_msg {fsr : ℚ} {g : ℤ → List ℤ} {us : List ℤ} {m : String}
    (h : buildTrains fsr g us = Except.error m) : m = emptyReduceMsg := by
  induction us with
  | nil => cases h
  | cons u us ih =>
    rw [buildTrains] at h
    cases hb : buildNeoTrain fsr u (g u) with
    | error m2 => rw [hb] at h; cases h; exact buildNeoTrain_error_msg hb
    | ok st =>
      rw [hb] at h
      cases hr : buildTrains fsr g us with
      | error m2 => rw [hr] at h; cases h; exact ih hr
      | ok sts => rw [hr] at h; cases h

theorem buildTrains_error_of_empty {fsr : ℚ} {g : ℤ → List ℤ} {us : List ℤ}
    (h : ∃ u ∈ us, g u = []) : buildTrains fsr g us = Except.error emptyReduceMsg := by
  induction us with
  | nil => rcases h with ⟨u, hmem, _⟩; cases hmem
  | cons u us ih =>
    rcases h with ⟨u2, hmem, hempty⟩
    rcases List.mem_cons.mp hmem with rfl | hmem2
    · rw [buildTrains, hempty]
      rfl
    · rw [buildTrains]
      cases hb : buildNeoTrain fsr u (g u) with
      | error m2 => rw [buildNeoTrain_error_msg hb]
      | ok st => rw [ih ⟨u2, hmem2, hempty⟩]

theorem buildTrains_ok_of_nonempty {fsr : ℚ} {g : ℤ → List ℤ} {us : List ℤ}
    (h : ∀ u ∈ us, g u ≠ []) : ∃ sts, buildTrains fsr g us = Except.ok sts := by
  induction us with
  | nil => exact ⟨[], rfl⟩
  | cons u us ih =>
    rcases ih (fun u2 h2 => h u2 (List.mem_cons_of_mem _ h2)) with ⟨sts, hsts⟩
    cases hg : g u with
    | nil => exact absurd hg (h u (List.mem_cons_self _ _))
    | cons a rest =>
      cases hres : buildTrains fsr g (u :: us) with
      | ok sts2 => exact ⟨sts2, rfl⟩
      | error m =>
        rw [buildTrains, hg, buildNeoTrain, hsts] at hres
        cases hres

theorem writeRecording_eq (env : PyEnv) (rec : RecordingSource) (p : SavePath)
    (henv : load_required_modules env = Except.ok ()) :
    writeRecording env rec p =
      (if pathSuffix (resolveSavePath p "recording.h5").name = ".h5" ∨
          pathSuffix (resolveSavePath p "recording.h5").name = ".hdf5" then
        if hasLocation rec then
          match gatherPositions rec.channelProps rec.channel_ids with
          | Except.error e => Except.error e
          | Except.ok positions =>
            Except.ok
              ⟨(resolveSavePath p "recording.h5").name, rec.fs, rec.traces,
                some positions⟩
        else
          Except.ok
            ⟨(resolveSavePath p "recording.h5").name, rec.fs, rec.traces, none⟩
      else Except.error usageErrorMsg) := by
  unfold writeRecording
  rw [henv]

theorem writeSorting_eq (env : PyEnv) (ss : SortingSource) (p : SavePath) (fsr : ℚ)
    (henv : load_required_modules env = Except.ok ()) :
    writeSorting env ss p fsr =
      (if pathSuffix (resolveSavePath p "sorting.h5").name = ".h5" ∨
          pathSuffix (resolveSavePath p "sorting.h5").name = ".hdf5" then
        match buildTrains fsr ss.spike_train ss.unit_ids with
        | Except.error e => Except.error e
        | Except.ok sts => Except.ok ⟨(resolveSavePath p "sorting.h5").name, fsr, sts⟩
      else Except.error usageErrorMsg) := by
  unfold writeSorting
  rw [henv]

/-- C6: when the dependencies load, a `save_path` that is an existing
directory is rewritten to the default filename (`recording.h5` /
`sorting.h5`) inside it and the save is not rejected by the path check;
a non-directory path whose suffix is neither `.h5` nor `.hdf5` makes both
write routines fail with the usage error and nothing is saved. -/
theorem C6_savePath (env : PyEnv) (rec : RecordingSource) (ss : SortingSource)
    (fsr : ℚ) (p : SavePath)
    (henv : load_required_modules env = Except.ok ()) :
    (p.isDir = true →
      writeRecording env rec p ≠ Except.error usageErrorMsg ∧
      writeSorting env ss p fsr ≠ Except.error usageErrorMsg ∧
      (∀ out, writeRecording env rec p = Except.ok out →
        out.filename = "recording.h5") ∧
      (∀ out2, writeSorting env ss p fsr = Except.ok out2 →
        out2.filename = "sorting.h5")) ∧
    (p.isDir = false → pathSuffix p.name ≠ ".h5" → pathSuffix p.name ≠ ".hdf5" →
      writeRecording env rec p = Except.error usageErrorMsg ∧
      writeSorting env ss p fsr = Except.error usageErrorMsg) := by
  rw [writeRecording_eq env rec p henv, writeSorting_eq env ss p fsr henv]
  constructor
  · intro hd
    have hres : resolveSavePath p "recording.h5" = ⟨false, "recording.h5"⟩ := by
      unfold resolveSavePath
      rw [hd]
      simp
    have hres2 : resolveSavePath p "sorting.h5" = ⟨false, "sorting.h5"⟩ := by
      unfold resolveSavePath
      rw [hd]
      simp
    rw [hres, hres2, if_pos (Or.inl (by decide)), if_pos (Or.inl (by decide))]
    refine ⟨?_, ?_, ?_, ?_⟩
    · cases hLoc : hasLocation rec with
      | false =>
        rw [if_neg (by simp)]
        intro hcon
        cases hcon
      | true =>
        rw [if_pos rfl]
        cases hg : gatherPositions rec.channelProps rec.channel_ids with
        | error m =>
          intro hcon
          rw [Except.error.injEq] at hcon
          rw [gatherPositions_error_msg hg] at hcon
          exact absurd hcon (by decide)
        | ok ps =>
          intro hcon
          cases hcon
    · cases hb : buildTrains fsr ss.spike_train ss.unit_ids with
      | error m =>
        intro hcon
        rw [Except.error.injEq] at hcon
        rw [buildTrains_error_msg hb] at hcon
        exact absurd hcon (by decide)
      | ok sts =>
        intro hcon
        cases hcon
    · intro out hout
      rcases hLoc : hasLocation rec with _ | _
      · rw [if_neg (by simp [hLoc])] at hout
        cases hout
        rfl
      · rw [if_pos hLoc] at hout
        cases hg : gatherPositions rec.channelProps rec.channel_ids with
        | error m => rw [hg] at hout; cases hout
        | ok ps => rw [hg] at hout; cases hout; rfl
    · intro out2 hout
      cases hb : buildTrains fsr ss.spike_train ss.unit_ids with
      | error m => rw [hb] at hout; cases hout
      | ok sts => rw [hb] at hout; cases hout; rfl
  · intro hd h5 hdf5
    have hres : resolveSavePath p "recording.h5" = p := by
      unfold resolveSavePath
      rw [hd]
      simp
    have hres2 : resolveSavePath p "sorting.h5" = p := by
      unfold resolveSavePath
      rw [hd]
      simp
    rw [hres, hres2, if_neg (by tauto), if_neg (by tauto)]
    exact ⟨rfl, rfl⟩

/-- C6 witness: the statement applied with the dependencies present, a
directory path for the first part, and the path `foo.txt` for the second. -/
theorem C6_witness :
    (writeRecording allDeps recW0 ⟨true, "outdir"⟩ ≠ Except.error usageErrorMsg) ∧
    (∀ out, writeRecording allDeps recW0 ⟨true, "outdir"⟩ = Except.ok out →
      out.filename = "recording.h5") ∧
    (writeRecording allDeps recW0 ⟨false, "foo.txt"⟩ = Except.error usageErrorMsg) ∧
    (writeSorting allDeps ssW ⟨false, "foo.txt"⟩ 100 = Except.error usageErrorMsg) := by
  have h1 := C6_savePath allDeps recW0 ssW 100 ⟨true, "outdir"⟩ rfl
  have h2 := C6_savePath allDeps recW0 ssW 100 ⟨false, "foo.txt"⟩ rfl
  exact ⟨(h1.1 rfl).1, (h1.1 rfl).2.2.1, (h2.2 rfl (by decide) (by decide)).1,
    (h2.2 rfl (by decide) (by decide)).2⟩

theorem listIndex_eq_none {uid : ℤ} {l : List ℤ} (h : uid ∉ l) :
    listIndex uid l = none := by
  induction l with
  | nil => rfl
  | cons x xs ih =>
    rw [listIndex, if_neg (fun he => h (by rw [← he]; exact List.mem_cons_self _ _)),
      ih (fun hm => h (List.mem_cons_of_mem _ hm))]
    rfl

theorem listIndex_first {l : List ℤ} {uid : ℤ} : ∀ {i : ℕ} (hi : i < l.length),
    l.get ⟨i, hi⟩ = uid →
    (∀ j (hj : j < i), l.get ⟨j, Nat.lt_trans hj hi⟩ ≠ uid) →
    listIndex uid l = some i := by
  induction l with
  | nil => intro i hi _ _; exact absurd hi (Nat.not_lt_zero i)
  | cons x xs ih =>
    intro i hi hget hfirst
    cases i with
    | zero => rw [listIndex, if_pos (show x = uid from hget)]
    | succ i =>
      have hx : ¬(x = uid) := hfirst 0 (Nat.succ_pos i)
      rw [listIndex, if_neg hx,
        ih (Nat.lt_of_succ_lt_succ hi) hget
          (fun j hj => hfirst (j + 1) (Nat.succ_lt_succ hj))]
      rfl

/-- C7: `getUnitSpikeTrain` looks the unit up by VALUE in `unit_ids()`
(first matching position), so a unit with a non-positional identifier
found at index `i` is served from `spike_trains[i]`; a `unit_id` absent
from `unit_ids()` raises a lookup error. -/
theorem C7_lookup (e : MEArecSortingExtractor) (uid : ℤ) (s en : Option ℤ) :
    (uid ∉ e.unit_ids →
      e.getUnitSpikeTrain uid s en =
        Except.error "ValueError: unit_id is not in list") ∧
    (∀ i (hi : i < e.unit_ids.length), e.unit_ids.get ⟨i, hi⟩ = uid →
      (∀ j (hj : j < i), e.unit_ids.get ⟨j, Nat.lt_trans hj hi⟩ ≠ uid) →
      e.getUnitSpikeTrain uid s en =
        Except.ok
          ((((e.spike_trains.getD i defaultTrain).times.map
              (fun t => t * e.fs)).filter (windowPred (s.getD 0) en)).map rint)) := by
  constructor
  · intro hmem
    unfold MEArecSortingExtractor.getUnitSpikeTrain
    rw [listIndex_eq_none hmem]
  · intro i hi hget hfirst
    unfold MEArecSortingExtractor.getUnitSpikeTrain
    rw [listIndex_first hi hget hfirst]

/-- C7 witness: on the extractor `eC7` with `unit_ids() = [10, 20]`, the
absent id 99 raises the lookup error and id 20 (found at index 1) is served
from the second spike train. -/
theorem C7_witness :
    eC7.getUnitSpikeTrain 99 none none =
      Except.error "ValueError: unit_id is not in list" ∧
    eC7.getUnitSpikeTrain 20 none none =
      Except.ok
        ((((eC7.spike_trains.getD 1 defaultTrain).times.map
            (fun t => t * eC7.fs)).filter
              (windowPred ((none : Option ℤ).getD 0) none)).map rint) := by
  constructor
  · exact (C7_lookup eC7 99 none none).1 (by decide)
  · exact (C7_lookup eC7 20 none none).2 1 (by decide) (by decide)
      (fun j hj => by
        have hj0 : j = 0 := by omega
        subst hj0
        exact (by decide : (10 : ℤ) ≠ 20))

/-- C8: whenever one of the three required packages fails to import, every
entry point (construction of either adapter, `writeRecording`,
`writeSorting`) fails with the single dependency error, whose message
contains the installation instruction `pip install MEArec`. -/
theorem C8_deps (env : PyEnv) (c : RecContainer) (sc : SortContainer)
    (rec : RecordingSource) (ss : SortingSource) (fsr : ℚ) (p : SavePath)
    (h : env.has_MEArec = false ∨ env.has_quantities = false ∨ env.has_neo = false) :
    MEArecRecordingExtractor.init env c = Except.error depMissingMsg ∧
    MEArecSortingExtractor.init env sc = Except.error depMissingMsg ∧
    writeRecording env rec p = Except.error depMissingMsg ∧
    writeSorting env ss p fsr = Except.error depMissingMsg ∧
    List.IsInfix ("pip install MEArec".toList) (depMissingMsg.toList) := by
  have hl : load_required_modules env = Except.error depMissingMsg := by
    unfold load_required_modules
    rcases h with h | h | h <;> rw [h] <;> simp
  refine ⟨?_, ?_, ?_, ?_, by decide⟩
  · unfold MEArecRecordingExtractor.init
    rw [hl]
  · unfold MEArecSortingExtractor.init
    rw [hl]
  · unfold writeRecording
    rw [hl]
  · unfold writeSorting
    rw [hl]

/-- C8 witness: the statement applied to the environment in which the
`MEArec` package is missing, with trivial containers, sources and path. -/
theorem C8_witness :
    MEArecRecordingExtractor.init ⟨false, true, true⟩ ⟨[], 0, []⟩ =
      Except.error depMissingMsg ∧
    MEArecSortingExtractor.init ⟨false, true, true⟩ ⟨[], 0⟩ =
      Except.error depMissingMsg ∧
    writeRecording ⟨false, true, true⟩ recW0 ⟨false, "a.h5"⟩ =
      Except.error depMissingMsg ∧
    writeSorting ⟨false, true, true⟩ ssW ⟨false, "a.h5"⟩ 100 =
      Except.error depMissingMsg ∧
    List.IsInfix ("pip install MEArec".toList) (depMissingMsg.toList) :=
  C8_deps ⟨false, true, true⟩ ⟨[], 0, []⟩ ⟨[], 0⟩ recW0 ssW 100 ⟨false, "a.h5"⟩
    (Or.inl rfl)

/-- C10: with the dependencies present and an accepted save path,
`writeSorting` raises as soon as some unit's spike-sample sequence is empty
(the `np.min` of an empty converted sequence), and builds all spike-train
objects successfully when every unit has at least one spike. -/
theorem C10_emptyTrain (env : PyEnv) (ss : SortingSource) (p : SavePath) (fsr : ℚ)
    (henv : load_required_modules env = Except.ok ())
    (hp : p.isDir = true ∨ pathSuffix p.name = ".h5" ∨ pathSuffix p.name = ".hdf5") :
    ((∃ u ∈ ss.unit_ids, ss.spike_train u = []) →
      writeSorting env ss p fsr = Except.error emptyReduceMsg) ∧
    ((∀ u ∈ ss.unit_ids, ss.spike_train u ≠ []) →
      ∃ out, writeSorting env ss p fsr = Except.ok out) := by
  rw [writeSorting_eq env ss p fsr henv]
  have hcond : pathSuffix (resolveSavePath p "sorting.h5").name = ".h5" ∨
      pathSuffix (resolveSavePath p "sorting.h5").name = ".hdf5" := by
    rcases hd : p.isDir with _ | _
    · rcases hp with hp | hp
      · rw [hd] at hp; cases hp
      · have : resolveSavePath p "sorting.h5" = p := by
          unfold resolveSavePath
          rw [hd]
          simp
        rw [this]
        exact hp
    · have : resolveSavePath p "sorting.h5" = ⟨false, "sorting.h5"⟩ := by
        unfold resolveSavePath
        rw [hd]
        simp
      rw [this]
      exact Or.inl (by decide)
  rw [if_pos hcond]
  constructor
  · intro hempty
    rw [buildTrains_error_of_empty hempty]
  · intro hnonempty
    rcases buildTrains_ok_of_nonempty hnonempty with ⟨sts, hsts⟩
    rw [hsts]
    exact ⟨_, rfl⟩

/-- C10 witness: the statement applied to the path `sorting.h5`, once with
the source whose single unit has no spikes (failure) and once with the
source whose single unit has one spike (success). -/
theorem C10_witness :
    writeSorting allDeps ssEmpty ⟨false, "sorting.h5"⟩ 100 =
      Except.error emptyReduceMsg ∧
    (∃ out, writeSorting allDeps ssW ⟨false, "sorting.h5"⟩ 100 = Except.ok out) := by
  constructor
  · exact (C10_emptyTrain allDeps ssEmpty ⟨false, "sorting.h5"⟩ 100 rfl
      (Or.inr (Or.inl (by decide)))).1 ⟨0, List.mem_cons_self _ _, rfl⟩
  · exact (C10_emptyTrain allDeps ssW ⟨false, "sorting.h5"⟩ 100 rfl
      (Or.inr (Or.inl (by decide)))).2 (fun u _ => by simp [ssW])
